import Mathlib

set_option maxRecDepth 8000

namespace Acbs

/-- Modelled from the spec: acbs.utils.uniq (the shared utilities module is not
under src); de-duplication of a list keeping first-occurrence order, with the
elements already seen carried in an accumulator. -/
def uniqAux [BEq α] (seen : List α) : List α → List α
  | [] => []
  | x :: xs => if seen.contains x then uniqAux seen xs else x :: uniqAux (x :: seen) xs

/-- Modelled from the spec: acbs.utils.uniq returns a new list preserving
first-occurrence order with duplicate elements removed. -/
def uniq [BEq α] (l : List α) : List α := uniqAux [] l

/-- Shallow embedding of acbs.base.ACBSPackageInfo (base.py is not under src)
restricted to the fields the claims use; fields follow the spec data model:
deps is the unsatisfied-dependency list and installables the host-binary
subset produced by the package-manager bridge. -/
structure ACBSPackageInfo where
  name : String
  deps : List String
  installables : List String
deriving DecidableEq

/-- Embedding of the loop body of pm.filter_dependencies (src/acbs/pm.py lines
15-21): partitions a dependency list into the installable ones (not installed
but available) and the remaining ones (neither installed nor available);
dependencies already installed are dropped. The subprocess queries
check_if_installed and check_if_available are abstracted by the boolean
oracles installed and available. -/
def filter_deps_loop (installed available : String → Bool) : List String → List String × List String
  | [] => ([], [])
  | dep :: rest =>
    let r := filter_deps_loop installed available rest
    if installed dep then r
    else if available dep then (dep :: r.1, r.2)
    else (r.1, dep :: r.2)

/-- Embedding of pm.filter_dependencies (src/acbs/pm.py lines 12-24): mutates
the task so that deps keeps only the dependencies to build from source and
installables receives the ones available as host binaries. -/
def filter_dependencies (installed available : String → Bool)
    (package : ACBSPackageInfo) : ACBSPackageInfo :=
  let r := filter_deps_loop installed available package.deps
  ⟨package.name, r.2, r.1⟩

/-- The three regex metacharacters escaped by pm.escape_package_name. -/
def is_regex_meta (c : Char) : Bool := c == '+' || c == '*' || c == '?'

/-- Character-level embedding of re.sub applied in pm.escape_package_name:
every occurrence of +, * or ? is replaced by a backslash followed by the
character itself; all other characters are kept unchanged. -/
def escape_chars : List Char → List Char
  | [] => []
  | c :: cs => if is_regex_meta c then '\\' :: c :: escape_chars cs else c :: escape_chars cs

/-- Embedding of pm.escape_package_name (src/acbs/pm.py lines 27-28). -/
def escape_package_name (name : String) : String :=
  String.mk (escape_chars name.data)

/-- Error message raised by pm.fix_pm_states after the third failed attempt. -/
def unable_to_correct_msg : String := "Unable to correct package manager states..."

/-- Embedding of the while loop of pm.fix_pm_states (src/acbs/pm.py lines
32-43). The two subprocess calls of attempt number count are abstracted as
the oracles repairOk count (apt-get install -yf) and installOk count (the
batch install); an attempt succeeds when both complete without error. The
loop condition count < 3 is represented by the remaining-iteration argument,
which equals 3 - count at every reachable call. Returns the number of
attempts performed together with success or the fatal error. -/
def fix_pm_loop (repairOk installOk : Nat → Bool) (count : Nat) : Nat → Nat × Except String Unit
  | 0 => (0, Except.error unable_to_correct_msg)
  | n + 1 =>
    if repairOk count && installOk count then (1, Except.ok ())
    else
      let r := fix_pm_loop repairOk installOk (count + 1) n
      (r.1 + 1, r.2)

/-- Embedding of pm.fix_pm_states (src/acbs/pm.py lines 31-43): the loop is
entered with count = 0 and at most 3 iterations. -/
def fix_pm_states (repairOk installOk : Nat → Bool) : Nat × Except String Unit :=
  fix_pm_loop repairOk installOk 0 3

/-- Errors that terminate Dependencies.process_deps abnormally. selfDep is the
ACBSGeneralError raised for a self-dependency with no binary fallback;
pmError is the RuntimeError propagated out of PackageManager.correct_deps
when state correction is exhausted; typeError models the Python TypeError
raised in the exhaust branch by the expression set + list when the unresolved
set is nonempty; outOfFuel is a model artifact marking exhaustion of the
recursion budget and is proved unreachable. -/
inductive DepsError where
  | selfDep
  | pmError
  | typeError
  | outOfFuel
deriving DecidableEq

/-- Oracle view of the PackageManager instance used by Dependencies: which
package names the host reports installed, which the catalog lists available,
and whether install_pkgs and correct_deps succeed when invoked while the
retry counter has the given value. -/
structure PMOracle where
  installed : String → Bool
  available : String → Bool
  installOk : Nat → Bool
  correctOk : Nat → Bool

/-- Modelled from the spec: PackageManager.query_current_miss_pkgs of the
PackageManager class imported by deps.py but not present under src; per the
spec section on the host package-manager bridge it keeps the packages the
host does not report as installed. -/
def query_current_miss_pkgs (o : PMOracle) (pkgs : List String) : List String :=
  pkgs.filter (fun p => !(o.installed p))

/-- Modelled from the spec: PackageManager.query_online_pkgs of the missing
PackageManager class; keeps the packages whose names the host catalog lists
as available. -/
def query_online_pkgs (o : PMOracle) (pkgs : List String) : List String :=
  pkgs.filter (fun p => o.available p)

/-- Embedding of Dependencies.search_deps (src/acbs/deps.py lines 12-18):
splits the candidates into the installable ones and the not-available ones,
returning exactly one of the two (the Python code returns the pair
(None, pkgs_not_avail) when some package is unresolvable and
(pkgs_to_install, None) otherwise). Python builds pkgs_not_avail as a set;
it is kept here as a de-duplicated list in first-occurrence order. -/
def search_deps (o : PMOracle) (search_pkgs : List String) :
    Option (List String) × Option (List String) :=
  let pkgs_miss := query_current_miss_pkgs o search_pkgs
  let pkgs_to_install := query_online_pkgs o pkgs_miss
  let pkgs_not_avail := uniq (pkgs_miss.filter (fun p => !(pkgs_to_install.contains p)))
  if pkgs_not_avail.isEmpty then (some pkgs_to_install, none) else (none, some pkgs_not_avail)

/-- Models the Python test `not i.strip()`: true when the string is empty or
consists only of whitespace. -/
def is_blank (s : String) : Bool := s.data.all (fun c => c.isWhitespace)

/-- Embedding of the search-list loop of Dependencies.process_deps
(src/acbs/deps.py lines 25-36): every entry equal to the package slug is
re-checked through search_deps, raising the self-dependency error when it has
no binary fallback and logging a warning otherwise (warnings are counted in
the second component); blank entries are dropped and everything else is kept
in declaration order. -/
def collect_search_pkgs (o : PMOracle) (pkg_slug : String) :
    List String → Except DepsError (List String) × Nat
  | [] => (Except.ok [], 0)
  | i :: rest =>
    if i == pkg_slug then
      match (search_deps o [i]).2 with
      | some _ => (Except.error DepsError.selfDep, 0)
      | none =>
        let r := collect_search_pkgs o pkg_slug rest
        match r.1 with
        | Except.error e => (Except.error e, r.2 + 1)
        | Except.ok tail =>
          if is_blank i then (Except.ok tail, r.2 + 1) else (Except.ok (i :: tail), r.2 + 1)
    else
      let r := collect_search_pkgs o pkg_slug rest
      match r.1 with
      | Except.error e => (Except.error e, r.2)
      | Except.ok tail =>
        if is_blank i then (Except.ok tail, r.2) else (Except.ok (i :: tail), r.2)

/-- Observable outcome of one Dependencies.process_deps call: the returned
value or raised error, the final value of the instance retry counter, the
number of install_pkgs invocations, the number of self-dependency warnings,
and the number of process_deps invocations including recursive ones. -/
structure DepsOutcome where
  res : Except DepsError (Option (List String))
  retryAfter : Nat
  installs : Nat
  selfWarnings : Nat
  calls : Nat

/-- Embedding of the body of Dependencies.process_deps (src/acbs/deps.py
lines 20-59), with the recursive re-invocation of line 59 abstracted as the
continuation recur. The instance field self.retry is threaded through as the
retry argument (line 58 increments it before re-invoking, hence
recur (retry + 1)), and its final value is reported. When the exhaust branch
of line 40 is reached with a nonempty unresolved set, the Python expression
set + list raises TypeError, modelled as DepsError.typeError; with an empty
unresolved set the branch returns uniq of the installable names. In the
install-failure path the code increments self.retry, re-invokes itself and
discards the inner return value, so the outer call returns None. -/
def process_deps_body (o : PMOracle) (build_deps run_deps : List String) (pkg_slug : String)
    (retry : Nat) (recur : Nat → DepsOutcome) : DepsOutcome :=
  let c := collect_search_pkgs o pkg_slug (build_deps ++ run_deps)
  match c.1 with
  | Except.error e => ⟨Except.error e, retry, 0, c.2, 1⟩
  | Except.ok search_pkgs =>
    let s := search_deps o search_pkgs
    if 1 < retry then
      match s.2 with
      | some _ => ⟨Except.error DepsError.typeError, retry, 0, c.2, 1⟩
      | none => ⟨Except.ok (some (uniq (s.1.getD []))), retry, 0, c.2, 1⟩
    else
      match s.2 with
      | some na => ⟨Except.ok (some na), retry, 0, c.2, 1⟩
      | none =>
        if (s.1.getD []).isEmpty then ⟨Except.ok none, retry, 0, c.2, 1⟩
        else if o.installOk retry then ⟨Except.ok none, retry, 1, c.2, 1⟩
        else if o.correctOk retry then
          let sub := recur (retry + 1)
          match sub.res with
          | Except.error e =>
            ⟨Except.error e, sub.retryAfter, sub.installs + 1,
              c.2 + sub.selfWarnings, sub.calls + 1⟩
          | Except.ok _ =>
            ⟨Except.ok none, sub.retryAfter, sub.installs + 1,
              c.2 + sub.selfWarnings, sub.calls + 1⟩
        else ⟨Except.error DepsError.pmError, retry, 1, c.2, 1⟩

/-- The recursion of Dependencies.process_deps driven by an explicit budget;
the budget 3 used by the wrapper is proved sufficient, so the outOfFuel
branch is unreachable from it. -/
def process_deps_fuel (o : PMOracle) (build_deps run_deps : List String) (pkg_slug : String) :
    Nat → Nat → DepsOutcome
  | 0, retry => ⟨Except.error DepsError.outOfFuel, retry, 0, 0, 0⟩
  | fuel + 1, retry =>
    process_deps_body o build_deps run_deps pkg_slug retry
      (process_deps_fuel o build_deps run_deps pkg_slug fuel)

/-- Dependencies.process_deps entered with the given current retry counter;
the budget 3 covers the deepest possible chain (retry 0 → 1 → 2, where the
exhaust branch returns without recursing). -/
def process_deps (o : PMOracle) (build_deps run_deps : List String) (pkg_slug : String)
    (retry : Nat) : DepsOutcome :=
  process_deps_fuel o build_deps run_deps pkg_slug 3 retry

/-- Embedding of Dependencies.__init__ (src/acbs/deps.py lines 8-10): the
retry counter of a fresh instance. -/
def initial_retry : Nat := 0

/-- Embedding of the dependency-resolution choice in BuildCore.build
(src/acbs/main.py lines 88-95): with no_deps set, every requested package
becomes its own singleton unit in request order; otherwise the adjacency
graph is built and handed to the Tarjan search, both outside src
(acbs.parser.get_deps_graph, tarjan_search) and abstracted here as the
resolver oracle. -/
def resolve_stage (no_deps : Bool) (packages : List String)
    (resolver : List String → List (List String)) : List (List String) :=
  if no_deps then packages.map (fun p => [p]) else resolver packages

/-- Embedding of the SCC scan of BuildCore.build (src/acbs/main.py lines
99-107): walks the resolved components carrying the loop error flag; a
component of size > 1 is recorded as a found loop and sets the flag; any
other component is enqueued only while the flag is still clear. Returns the
enqueued packages, the final error flag and the logged loops, in order. -/
def scan_resolved (error : Bool) : List (List String) → List String × Bool × List (List String)
  | [] => ([], error, [])
  | dep :: rest =>
    if 1 < dep.length then
      let r := scan_resolved true rest
      (r.1, r.2.1, dep :: r.2.2)
    else if error then
      scan_resolved error rest
    else
      let r := scan_resolved error rest
      (dep ++ r.1, r.2.1, r.2.2)

/-- Fatal errors of the modelled part of BuildCore.build: the dependency-loop
abort of line 109 and the per-package build failure of line 155, carrying the
package name and its build folder. -/
inductive BuildError where
  | depsNotResolved
  | buildFailure (name folder : String)
deriving DecidableEq

/-- Observable outcome of the build loop: the content of the last
print_build_timings call when one was made (on success the final report of
line 157, on failure the early report of line 154, which is skipped when no
timing was collected), the accumulated timings, the packages for which the
build tool was invoked, and the final result. -/
structure BuildReport where
  printed : Option (List (String × Nat))
  timings : List (String × Nat)
  built : List String
  result : Except BuildError Unit

/-- Embedding of the per-package build loop of BuildCore.build
(src/acbs/main.py lines 118-157), restricted to the invoke-and-time part
(lines 148-157): fetching and staging are elided (they do not touch the
timing list), invoke_autobuild succeeds on a task exactly when buildOk holds
of its name and then takes dur of the name as elapsed time, and the build
directory of a task is dirOf of its name. On failure the timings collected
so far are printed first when nonempty, then the build-failure error naming
the package and its folder is raised; on success the timing entry is
appended after the build and the loop continues. -/
def build_loop (buildOk : String → Bool) (dur : String → Nat) (dirOf : String → String) :
    List String → List (String × Nat) → BuildReport
  | [], timings => ⟨some timings, timings, [], Except.ok ()⟩
  | t :: rest, timings =>
    if buildOk t then
      let r := build_loop buildOk dur dirOf rest (timings ++ [(t, dur t)])
      ⟨r.printed, r.timings, t :: r.built, r.result⟩
    else
      ⟨if timings.isEmpty then none else some timings, timings, [t],
        Except.error (BuildError.buildFailure t (dirOf t))⟩

/-- Embedding of BuildCore.build from the SCC scan onwards (src/acbs/main.py
lines 99-157): scans the resolved components, raises the fatal
dependency-loop error when any loop was found - before any build step - and
otherwise runs the build loop over the enqueued packages with an empty
timing list (check_package_groups, not under src, is elided). -/
def drive_build (resolved : List (List String)) (buildOk : String → Bool)
    (dur : String → Nat) (dirOf : String → String) : BuildReport :=
  let r := scan_resolved false resolved
  if r.2.1 then ⟨none, [], [], Except.error BuildError.depsNotResolved⟩
  else build_loop buildOk dur dirOf r.1 []

/-- Oracle for the C3 scenario: nothing installed, everything available as a
binary, install_pkgs always failing, correct_deps always succeeding. -/
def failing_install_oracle : PMOracle :=
  ⟨fun _ => false, fun _ => true, fun _ => false, fun _ => true⟩

/-- Oracle for the C10 counterexample: nothing installed and nothing
available, install and correction succeeding. -/
def nothing_available_oracle : PMOracle :=
  ⟨fun _ => false, fun _ => false, fun _ => true, fun _ => true⟩

/-- Oracle where nothing is installed but everything has a host binary and
every package-manager operation succeeds. -/
def self_binary_oracle : PMOracle :=
  ⟨fun _ => false, fun _ => true, fun _ => true, fun _ => true⟩

/-- Concrete task used to evaluate filter_dependencies. -/
def sample_pkg : ACBSPackageInfo := ⟨"x", ["a"], []⟩

/-- Host-state oracle reporting no package as installed. -/
def never_installed : String → Bool := fun _ => false

/-- Host-catalog oracle reporting every package as available. -/
def always_available : String → Bool := fun _ => true

/-- Build oracle where every external build succeeds. -/
def all_builds_ok : String → Bool := fun _ => true

/-- Build oracle failing exactly on the package named c. -/
def fails_on_c : String → Bool := fun s => !(s == "c")

/-- Elapsed-time oracle assigning one time unit to every build. -/
def unit_dur : String → Nat := fun _ => 1

/-- Build-directory oracle naming the directory after the package. -/
def dir_oracle : String → String := fun s => s

/-- Attempt oracle succeeding from the second attempt on. -/
def succeed_after_first : Nat → Bool := fun n => decide (0 < n)

/-- Attempt oracle that always succeeds. -/
def always_true_nat : Nat → Bool := fun _ => true

/-- A graph resolver oracle (never consulted in the no-deps path). -/
def trivial_resolver : List String → List (List String) := fun _ => []

/-- The loops logged by the SCC scan are exactly the components of size
greater than one, whatever the incoming error flag. -/
theorem scan_resolved_cycles (e : Bool) (l : List (List String)) :
    (scan_resolved e l).2.2 = l.filter (fun d => decide (1 < d.length)) := by
  induction l generalizing e with
  | nil => rfl
  | cons dep rest ih =>
    by_cases h : 1 < dep.length
    · simp [scan_resolved, h, ih]
    · cases e <;> simp [scan_resolved, h, ih]

/-- The error flag after the SCC scan is set exactly when it was already set
or some component has size greater than one. -/
theorem scan_resolved_error (e : Bool) (l : List (List String)) :
    (scan_resolved e l).2.1 = (e || l.any (fun d => decide (1 < d.length))) := by
  induction l generalizing e with
  | nil => simp [scan_resolved]
  | cons dep rest ih =>
    by_cases h : 1 < dep.length
    · simp [scan_resolved, h, ih]
    · cases e <;> simp [scan_resolved, h, ih]

/-- Once the error flag is set, the SCC scan enqueues nothing. -/
theorem scan_resolved_true_pkgs (l : List (List String)) :
    (scan_resolved true l).1 = [] := by
  induction l with
  | nil => rfl
  | cons dep rest ih =>
    by_cases h : 1 < dep.length
    · simp [scan_resolved, h, ih]
    · simp [scan_resolved, h, ih]

/-- Started with a clear error flag, the SCC scan enqueues exactly the
packages of the components strictly before the first component of size
greater than one. -/
theorem scan_resolved_false_pkgs (l : List (List String)) :
    (scan_resolved false l).1 = (l.takeWhile (fun d => decide (d.length ≤ 1))).flatten := by
  induction l with
  | nil => rfl
  | cons dep rest ih =>
    by_cases h : 1 < dep.length
    · have hp : (fun d => decide (d.length ≤ 1)) dep = false := by simp; omega
      simp [scan_resolved, h, scan_resolved_true_pkgs, List.takeWhile_cons, hp]
    · have hp : (fun d => decide (d.length ≤ 1)) dep = true := by simp; omega
      simp [scan_resolved, h, ih, List.takeWhile_cons, hp]

/-- C1: if the SCC-ordered resolution contains a component of size greater
than one, the build driver logs every such loop (the scan visits all
components), enqueues only the packages of the components strictly before
the first loop, raises the fatal dependency error and performs no build step
for any package (the report shows no build attempted, no timing collected,
nothing printed). -/
theorem c1_cycle_scan_abort (resolved : List (List String)) (buildOk : String → Bool)
    (dur : String → Nat) (dirOf : String → String)
    (h : ∃ d ∈ resolved, 1 < d.length) :
    (scan_resolved false resolved).2.2 =
      resolved.filter (fun d => decide (1 < d.length)) ∧
    (scan_resolved false resolved).1 =
      (resolved.takeWhile (fun d => decide (d.length ≤ 1))).flatten ∧
    drive_build resolved buildOk dur dirOf =
      ⟨none, [], [], Except.error BuildError.depsNotResolved⟩ := by
  refine ⟨scan_resolved_cycles false resolved, scan_resolved_false_pkgs resolved, ?_⟩
  have herr : (scan_resolved false resolved).2.1 = true := by
    rw [scan_resolved_error]
    obtain ⟨d, hd, hlen⟩ := h
    simp
    exact ⟨d, hd, hlen⟩
  simp [drive_build, herr]

/-- C1 witness: a concrete resolution with the loop in the middle. -/
theorem c1_witness :
    (scan_resolved false [["a"], ["b", "c"], ["d"]]).2.2 = [["b", "c"]] ∧
    (scan_resolved false [["a"], ["b", "c"], ["d"]]).1 = ["a"] ∧
    drive_build [["a"], ["b", "c"], ["d"]] all_builds_ok unit_dur dir_oracle =
      ⟨none, [], [], Except.error BuildError.depsNotResolved⟩ := by
  have h := c1_cycle_scan_abort [["a"], ["b", "c"], ["d"]] all_builds_ok unit_dur dir_oracle
    ⟨["b", "c"], by decide, by decide⟩
  exact ⟨h.1.trans (by decide), h.2.1.trans (by decide), h.2.2⟩

/-- C6: with dependency resolution disabled, the resolved queue is the
requested packages each wrapped as a singleton unit, in request order, for
every possible graph resolver (so no dependency graph is built and no Tarjan
search is run, even on circular declarations). -/
theorem c6_no_deps_bypass (packages : List String)
    (resolver : List String → List (List String)) :
    resolve_stage true packages resolver = packages.map (fun p => [p]) := by
  simp [resolve_stage]

/-- C6 witness: two requested packages under a (never consulted) resolver. -/
theorem c6_witness :
    resolve_stage true ["x", "y"] trivial_resolver = [["x"], ["y"]] :=
  (c6_no_deps_bypass ["x", "y"] trivial_resolver).trans (by decide)

/-- A string without the three regex metacharacters is left unchanged by the
character-level escaping. -/
theorem escape_chars_of_no_meta (l : List Char) (h : ∀ c ∈ l, is_regex_meta c = false) :
    escape_chars l = l := by
  induction l with
  | nil => rfl
  | cons c cs ih =>
    have hc := h c (by simp)
    simp [escape_chars, hc, ih (fun d hd => h d (by simp [hd]))]

/-- C9: escape_package_name prefixes each regex metacharacter occurrence
with one backslash and leaves everything else unchanged: the two concrete
examples of the spec, and identity on strings without metacharacters. -/
theorem c9_escape_package_name :
    escape_package_name ("gcc+") = ("gcc\\+") ∧
    escape_package_name ("lib?") = ("lib\\?") ∧
    ∀ s : String, (∀ c ∈ s.data, is_regex_meta c = false) → escape_package_name s = s := by
  refine ⟨rfl, rfl, ?_⟩
  intro s hs
  cases s with
  | mk data => simp [escape_package_name, escape_chars_of_no_meta data hs]

/-- C9 witness: a metacharacter-free name is returned unchanged. -/
theorem c9_witness : escape_package_name ("zlib") = ("zlib") :=
  c9_escape_package_name.2.2 ("zlib") (by decide)

/-- Every element placed into installables by the filter loop comes from the
input list and is available. -/
theorem filter_loop_mem_installables (installed available : String → Bool)
    (l : List String) (x : String) (hx : x ∈ (filter_deps_loop installed available l).1) :
    x ∈ l ∧ available x = true := by
  induction l with
  | nil => simp [filter_deps_loop] at hx
  | cons dep rest ih =>
    by_cases h1 : installed dep
    · simp only [filter_deps_loop, if_pos h1] at hx
      have := ih hx
      exact ⟨List.mem_cons_of_mem dep this.1, this.2⟩
    · by_cases h2 : available dep
      · simp only [filter_deps_loop, if_neg h1, if_pos h2, List.mem_cons] at hx
        rcases hx with hx | hx
        · subst hx; exact ⟨List.mem_cons_self x rest, h2⟩
        · have := ih hx
          exact ⟨List.mem_cons_of_mem dep this.1, this.2⟩
      · simp only [filter_deps_loop, if_neg h1, if_neg h2] at hx
        have := ih hx
        exact ⟨List.mem_cons_of_mem dep this.1, this.2⟩

/-- Every element left in deps by the filter loop is unavailable. -/
theorem filter_loop_mem_deps (installed available : String → Bool)
    (l : List String) (x : String) (hx : x ∈ (filter_deps_loop installed available l).2) :
    available x = false := by
  induction l with
  | nil => simp [filter_deps_loop] at hx
  | cons dep rest ih =>
    by_cases h1 : installed dep
    · simp only [filter_deps_loop, if_pos h1] at hx
      exact ih hx
    · by_cases h2 : available dep
      · simp only [filter_deps_loop, if_neg h1, if_pos h2] at hx
        exact ih hx
      · simp only [filter_deps_loop, if_neg h1, if_neg h2, List.mem_cons] at hx
        rcases hx with hx | hx
        · subst hx; exact Bool.of_not_eq_true h2
        · exact ih hx

/-- C2 counterexample: an uninstalled but available dependency ends up in
installables and not in deps after filter_dependencies, so the resulting
installables list is not a subset of the resulting deps list as the claim
states. -/
theorem c2_counterexample :
    ("a") ∈ (filter_dependencies never_installed always_available sample_pkg).installables ∧
    ("a") ∉ (filter_dependencies never_installed always_available sample_pkg).deps :=
  ⟨by decide, by decide⟩

/-- C2 amended: after filter_dependencies, installables is a subset of the
original deps of the task and is disjoint from the resulting deps (the two
output lists partition the unsatisfied dependencies). -/
theorem c2_filter_partition (installed available : String → Bool)
    (package : ACBSPackageInfo) :
    (∀ x ∈ (filter_dependencies installed available package).installables,
      x ∈ package.deps) ∧
    (∀ x ∈ (filter_dependencies installed available package).installables,
      x ∉ (filter_dependencies installed available package).deps) := by
  constructor
  · intro x hx
    simp only [filter_dependencies] at hx
    exact (filter_loop_mem_installables installed available package.deps x hx).1
  · intro x hx hxd
    simp only [filter_dependencies] at hx hxd
    have h1 := (filter_loop_mem_installables installed available package.deps x hx).2
    have h2 := filter_loop_mem_deps installed available package.deps x hxd
    rw [h1] at h2
    exact Bool.noConfusion h2

/-- C2 witness: the amended statement evaluated on the concrete task. -/
theorem c2_witness : ("a") ∈ sample_pkg.deps :=
  (c2_filter_partition never_installed always_available sample_pkg).1 ("a") (by decide)

/-- C5: fix_pm_states performs at most 3 attempts; it returns success after
attempt k as soon as k is the first attempt whose repair and install steps
both succeed (so a success on the second attempt performs no third attempt),
and it raises the fatal error, after exactly 3 attempts, exactly when all
three attempts fail. -/
theorem c5_fix_pm_states_bound (repairOk installOk : Nat → Bool) :
    ((∀ k, k < 3 → (repairOk k && installOk k) = false) →
      fix_pm_states repairOk installOk = (3, Except.error unable_to_correct_msg)) ∧
    (∀ k, k < 3 → (∀ m, m < k → (repairOk m && installOk m) = false) →
      (repairOk k && installOk k) = true →
      fix_pm_states repairOk installOk = (k + 1, Except.ok ())) := by
  constructor
  · intro h
    have h0 := h 0 (by omega)
    have h1 := h 1 (by omega)
    have h2 := h 2 (by omega)
    simp [fix_pm_states, fix_pm_loop, h0, h1, h2]
  · intro k hk hmin hks
    interval_cases k
    · simp [fix_pm_states, fix_pm_loop, hks]
    · have h0 := hmin 0 (by omega)
      simp [fix_pm_states, fix_pm_loop, h0, hks]
    · have h0 := hmin 0 (by omega)
      have h1 := hmin 1 (by omega)
      simp [fix_pm_states, fix_pm_loop, h0, h1, hks]

/-- C5 witness: the first attempt fails, the second succeeds, and exactly two
attempts are performed. -/
theorem c5_witness :
    fix_pm_states succeed_after_first always_true_nat = (2, Except.ok ()) :=
  (c5_fix_pm_states_bound succeed_after_first always_true_nat).2 1 (by omega)
    (fun m hm => by interval_cases m; decide) (by decide)


/-- One step of the budget-driven recursion unfolds to the body applied to
the next budget level. -/
theorem process_deps_fuel_succ (o : PMOracle) (bd rd : List String) (slug : String)
    (fuel retry : Nat) :
    process_deps_fuel o bd rd slug (fuel + 1) retry =
      process_deps_body o bd rd slug retry (process_deps_fuel o bd rd slug fuel) := rfl

/-- The wrapper is the body applied to the budget-2 recursion. -/
theorem process_deps_eq_body (o : PMOracle) (bd rd : List String) (slug : String)
    (retry : Nat) :
    process_deps o bd rd slug retry =
      process_deps_body o bd rd slug retry (process_deps_fuel o bd rd slug 2) := rfl

/-- The only error the search-list loop raises is the self-dependency one. -/
theorem collect_error_selfDep (o : PMOracle) (slug : String) :
    ∀ (l : List String) (e : DepsError),
      (collect_search_pkgs o slug l).1 = Except.error e → e = DepsError.selfDep := by
  intro l
  induction l with
  | nil => intro e he; simp [collect_search_pkgs] at he
  | cons i rest ih =>
    intro e he
    by_cases hi : i == slug
    · simp only [collect_search_pkgs, if_pos hi] at he
      cases hs : (search_deps o [i]).2 with
      | some na =>
        simp [hs] at he
        exact he.symm
      | none =>
        simp only [hs] at he
        cases hr : (collect_search_pkgs o slug rest).1 with
        | error e2 =>
          simp [hr] at he
          rw [← he]
          exact ih e2 hr
        | ok tail =>
          by_cases hb : is_blank i <;> simp [hr, hb] at he
    · simp only [collect_search_pkgs, if_neg hi] at he
      cases hr : (collect_search_pkgs o slug rest).1 with
      | error e2 =>
        simp [hr] at he
        rw [← he]
        exact ih e2 hr
      | ok tail =>
        by_cases hb : is_blank i <;> simp [hr, hb] at he

/-- A self-dependency with neither a local installation nor a host binary
makes the search-list loop raise the self-dependency error. -/
theorem collect_self_dep_error (o : PMOracle) (slug : String)
    (hinst : o.installed slug = false) (havail : o.available slug = false) :
    ∀ l : List String, slug ∈ l →
      (collect_search_pkgs o slug l).1 = Except.error DepsError.selfDep := by
  intro l
  induction l with
  | nil => intro hl; simp at hl
  | cons i rest ih =>
    intro hl
    by_cases hi : i == slug
    · have hieq : i = slug := eq_of_beq hi
      have hs2 : (search_deps o [i]).2 = some [i] := by
        rw [hieq]
        simp [search_deps, query_current_miss_pkgs, query_online_pkgs, uniq, uniqAux,
          hinst, havail]
      simp [collect_search_pkgs, hi, hs2]
    · have hmem : slug ∈ rest := by
        rcases List.mem_cons.mp hl with h | h
        · exact absurd (beq_iff_eq.mpr h.symm) hi
        · exact h
      have hr := ih hmem
      simp [collect_search_pkgs, hi, hr]

/-- When the slug has a host binary, the search-list loop never raises, and
it logs at least one warning whenever the slug occurs in the list. -/
theorem collect_avail_ok (o : PMOracle) (slug : String)
    (havail : o.available slug = true) :
    ∀ l : List String,
      (∃ sp, (collect_search_pkgs o slug l).1 = Except.ok sp) ∧
      (slug ∈ l → 1 ≤ (collect_search_pkgs o slug l).2) := by
  have hsearch : (search_deps o [slug]).2 = none := by
    cases hinst : o.installed slug <;>
      simp [search_deps, query_current_miss_pkgs, query_online_pkgs, uniq, uniqAux,
        hinst, havail]
  intro l
  induction l with
  | nil => exact ⟨⟨[], rfl⟩, by intro h; simp at h⟩
  | cons i rest ih =>
    obtain ⟨⟨sp, hsp⟩, hw⟩ := ih
    by_cases hi : i == slug
    · have hieq : i = slug := eq_of_beq hi
      have hs2 : (search_deps o [i]).2 = none := by rw [hieq]; exact hsearch
      constructor
      · by_cases hb : is_blank i
        · exact ⟨sp, by simp [collect_search_pkgs, hi, hs2, hsp, hb]⟩
        · exact ⟨i :: sp, by simp [collect_search_pkgs, hi, hs2, hsp, hb]⟩
      · intro _
        by_cases hb : is_blank i <;> simp [collect_search_pkgs, hi, hs2, hsp, hb]
    · constructor
      · by_cases hb : is_blank i
        · exact ⟨sp, by simp [collect_search_pkgs, hi, hsp, hb]⟩
        · exact ⟨i :: sp, by simp [collect_search_pkgs, hi, hsp, hb]⟩
      · intro hmem
        have hrest : slug ∈ rest := by
          rcases List.mem_cons.mp hmem with h | h
          · exact absurd (beq_iff_eq.mpr h.symm) hi
          · exact h
        have := hw hrest
        by_cases hb : is_blank i <;> simp [collect_search_pkgs, hi, hsp, hb] <;> omega

/-- When the search-list loop raises, the body propagates the error with no
install attempt and no recursion. -/
theorem body_collect_error (o : PMOracle) (bd rd : List String) (slug : String)
    (retry : Nat) (recur : Nat → DepsOutcome) (e : DepsError)
    (hcol : (collect_search_pkgs o slug (bd ++ rd)).1 = Except.error e) :
    process_deps_body o bd rd slug retry recur =
      ⟨Except.error e, retry, 0, (collect_search_pkgs o slug (bd ++ rd)).2, 1⟩ := by
  simp [process_deps_body, hcol]

/-- The body reports at least the warnings counted by the search-list loop. -/
theorem body_selfWarnings_ge (o : PMOracle) (bd rd : List String) (slug : String)
    (retry : Nat) (recur : Nat → DepsOutcome) :
    (collect_search_pkgs o slug (bd ++ rd)).2 ≤
      (process_deps_body o bd rd slug retry recur).selfWarnings := by
  simp only [process_deps_body]
  repeat' split
  all_goals simp

/-- The body never decreases the retry counter. -/
theorem body_retry_le (o : PMOracle) (bd rd : List String) (slug : String)
    (retry : Nat) (recur : Nat → DepsOutcome)
    (hr : ∀ r', r' ≤ (recur r').retryAfter) :
    retry ≤ (process_deps_body o bd rd slug retry recur).retryAfter := by
  have hr' := hr (retry + 1)
  simp only [process_deps_body]
  repeat' split
  all_goals simp
  all_goals omega

/-- The retry counter grows by at most one per install attempt. -/
theorem body_retry_installs (o : PMOracle) (bd rd : List String) (slug : String)
    (retry : Nat) (recur : Nat → DepsOutcome)
    (hr : ∀ r', (recur r').retryAfter ≤ r' + (recur r').installs) :
    (process_deps_body o bd rd slug retry recur).retryAfter ≤
      retry + (process_deps_body o bd rd slug retry recur).installs := by
  have hr' := hr (retry + 1)
  simp only [process_deps_body]
  repeat' split
  all_goals simp
  all_goals omega

/-- The body performs one call plus whatever the recursion performs. -/
theorem body_calls_le (o : PMOracle) (bd rd : List String) (slug : String)
    (retry : Nat) (recur : Nat → DepsOutcome) (n : Nat)
    (hr : ∀ r', (recur r').calls ≤ n) :
    (process_deps_body o bd rd slug retry recur).calls ≤ n + 1 := by
  have hr' := hr (retry + 1)
  simp only [process_deps_body]
  repeat' split
  all_goals simp
  all_goals omega

/-- When the search-list loop succeeds and the recursion never reports the
self-dependency error, neither does the body. -/
theorem body_res_no_selfDep (o : PMOracle) (bd rd : List String) (slug : String)
    (retry : Nat) (recur : Nat → DepsOutcome) (sp : List String)
    (hcol : (collect_search_pkgs o slug (bd ++ rd)).1 = Except.ok sp)
    (hrec : ∀ r', (recur r').res ≠ Except.error DepsError.selfDep) :
    (process_deps_body o bd rd slug retry recur).res ≠
      Except.error DepsError.selfDep := by
  have hrec' := hrec (retry + 1)
  simp only [process_deps_body, hcol]
  repeat' split
  all_goals simp_all

/-- If the recursion cannot run out of budget when it is actually taken, the
body never reports budget exhaustion. -/
theorem body_res_no_outOfFuel (o : PMOracle) (bd rd : List String) (slug : String)
    (retry : Nat) (recur : Nat → DepsOutcome)
    (hrec : ¬ 1 < retry → (recur (retry + 1)).res ≠ Except.error DepsError.outOfFuel) :
    (process_deps_body o bd rd slug retry recur).res ≠
      Except.error DepsError.outOfFuel := by
  cases hcol : (collect_search_pkgs o slug (bd ++ rd)).1 with
  | error e =>
    have he := collect_error_selfDep o slug (bd ++ rd) e hcol
    subst he
    rw [body_collect_error o bd rd slug retry recur _ hcol]
    simp
  | ok sp =>
    by_cases hlt : 1 < retry
    · simp only [process_deps_body, hcol, if_pos hlt]
      cases (search_deps o sp).2 <;> simp
    · have hrec' := hrec hlt
      simp only [process_deps_body, hcol, if_neg hlt]
      repeat' split
      all_goals simp_all

/-- With the retry counter above one, the body returns from the exhaust
branch: no install attempt, no recursion, and the result determined by the
outcome of search_deps on the collected list. -/
theorem body_exhaust (o : PMOracle) (bd rd : List String) (slug : String)
    (retry : Nat) (recur : Nat → DepsOutcome) (hlt : 1 < retry) :
    (process_deps_body o bd rd slug retry recur).installs = 0 ∧
    (process_deps_body o bd rd slug retry recur).calls = 1 := by
  cases hcol : (collect_search_pkgs o slug (bd ++ rd)).1 with
  | error e =>
    rw [body_collect_error o bd rd slug retry recur e hcol]
    exact ⟨rfl, rfl⟩
  | ok sp =>
    simp only [process_deps_body, hcol, if_pos hlt]
    cases (search_deps o sp).2 <;> exact ⟨rfl, rfl⟩

/-- With the retry counter above one and no unresolved dependency, the body
returns the de-duplicated installable union of the exhaust branch. -/
theorem body_exhaust_ok (o : PMOracle) (bd rd : List String) (slug : String)
    (retry : Nat) (recur : Nat → DepsOutcome) (sp : List String) (hlt : 1 < retry)
    (hcol : (collect_search_pkgs o slug (bd ++ rd)).1 = Except.ok sp)
    (hs2 : (search_deps o sp).2 = none) :
    (process_deps_body o bd rd slug retry recur).res =
      Except.ok (some (uniq ((search_deps o sp).1.getD []))) := by
  simp only [process_deps_body, hcol, if_pos hlt, hs2]

/-- With the retry counter above one and an unresolved dependency, the
exhaust branch raises the type error of the Python expression set + list. -/
theorem body_exhaust_typeError (o : PMOracle) (bd rd : List String) (slug : String)
    (retry : Nat) (recur : Nat → DepsOutcome) (sp na : List String) (hlt : 1 < retry)
    (hcol : (collect_search_pkgs o slug (bd ++ rd)).1 = Except.ok sp)
    (hs2 : (search_deps o sp).2 = some na) :
    (process_deps_body o bd rd slug retry recur).res =
      Except.error DepsError.typeError := by
  simp only [process_deps_body, hcol, if_pos hlt, hs2]

/-- Each budget level performs at most as many calls as the budget. -/
theorem fuel_calls_le (o : PMOracle) (bd rd : List String) (slug : String) :
    ∀ fuel retry, (process_deps_fuel o bd rd slug fuel retry).calls ≤ fuel := by
  intro fuel
  induction fuel with
  | zero => intro retry; simp [process_deps_fuel]
  | succ n ih =>
    intro retry
    rw [process_deps_fuel_succ]
    exact body_calls_le o bd rd slug retry _ n (fun r' => ih r')

/-- The retry counter never decreases at any budget level. -/
theorem fuel_retry_le (o : PMOracle) (bd rd : List String) (slug : String) :
    ∀ fuel retry, retry ≤ (process_deps_fuel o bd rd slug fuel retry).retryAfter := by
  intro fuel
  induction fuel with
  | zero => intro retry; simp [process_deps_fuel]
  | succ n ih =>
    intro retry
    rw [process_deps_fuel_succ]
    exact body_retry_le o bd rd slug retry _ (fun r' => ih r')

/-- The retry counter grows by at most the number of install attempts. -/
theorem fuel_retry_installs (o : PMOracle) (bd rd : List String) (slug : String) :
    ∀ fuel retry, (process_deps_fuel o bd rd slug fuel retry).retryAfter ≤
      retry + (process_deps_fuel o bd rd slug fuel retry).installs := by
  intro fuel
  induction fuel with
  | zero => intro retry; simp [process_deps_fuel]
  | succ n ih =>
    intro retry
    rw [process_deps_fuel_succ]
    exact body_retry_installs o bd rd slug retry _ (fun r' => ih r')

/-- When the search-list loop succeeds, no budget level reports the
self-dependency error. -/
theorem fuel_no_selfDep (o : PMOracle) (bd rd : List String) (slug : String)
    (sp : List String)
    (hcol : (collect_search_pkgs o slug (bd ++ rd)).1 = Except.ok sp) :
    ∀ fuel retry, (process_deps_fuel o bd rd slug fuel retry).res ≠
      Except.error DepsError.selfDep := by
  intro fuel
  induction fuel with
  | zero => intro retry; simp [process_deps_fuel]
  | succ n ih =>
    intro retry
    rw [process_deps_fuel_succ]
    exact body_res_no_selfDep o bd rd slug retry _ sp hcol (fun r' => ih r')

/-- A budget strictly larger than the distance of the retry counter to the
exhaust threshold is never exhausted. -/
theorem fuel_no_outOfFuel (o : PMOracle) (bd rd : List String) (slug : String) :
    ∀ fuel retry, 2 - retry < fuel →
      (process_deps_fuel o bd rd slug fuel retry).res ≠
        Except.error DepsError.outOfFuel := by
  intro fuel
  induction fuel with
  | zero => intro retry h; omega
  | succ n ih =>
    intro retry h
    rw [process_deps_fuel_succ]
    apply body_res_no_outOfFuel
    intro hle
    exact ih (retry + 1) (by omega)

/-- C8: process_deps terminates on every input: the recursion budget 3 is
never exhausted (the exhaust branch returns as soon as the counter exceeds
one), and at most 3 invocations of process_deps happen in total, that is at
most two re-invocations after the original call. -/
theorem c8_process_deps_bounded (o : PMOracle) (bd rd : List String) (slug : String)
    (retry : Nat) :
    (process_deps o bd rd slug retry).calls ≤ 3 ∧
    (process_deps o bd rd slug retry).res ≠ Except.error DepsError.outOfFuel := by
  constructor
  · exact fuel_calls_le o bd rd slug 3 retry
  · exact fuel_no_outOfFuel o bd rd slug 3 retry (by omega)

/-- C8 witness: the bound evaluated on a concrete run. -/
theorem c8_witness : (process_deps self_binary_oracle [] [] "p" 0).calls ≤ 3 :=
  (c8_process_deps_bounded self_binary_oracle [] [] "p" 0).1

/-- C3: evaluation of the failing scenario. Start with a fresh instance
(retry 0), one dependency a that is available but whose installation always
fails while state correction succeeds. The invocation that runs with the
counter above one (retry 2) does return the de-duplicated union, here the
list with a alone; but the chain started at retry 0 performs two failed
install attempts and then returns None to its caller, because the recursive
re-invocation at line 59 of deps.py discards the returned union. -/
theorem c3_exhaust_result_discarded :
    (process_deps failing_install_oracle ["a"] [] "p" 2).res =
      Except.ok (some ["a"]) ∧
    (process_deps failing_install_oracle ["a"] [] "p" 0).res = Except.ok none ∧
    (process_deps failing_install_oracle ["a"] [] "p" 0).installs = 2 :=
  ⟨rfl, rfl, rfl⟩

/-- C4: a dependency list containing the package slug. If the slug is
neither installed nor available as a host binary, process_deps raises the
fatal self-dependency error and attempts no installation; if the slug is
available as a host binary, the self-dependency error is never raised and at
least one warning is logged. -/
theorem c4_self_dependency (o : PMOracle) (bd rd : List String) (slug : String)
    (retry : Nat) (hmem : slug ∈ bd ++ rd) :
    (o.installed slug = false → o.available slug = false →
      (process_deps o bd rd slug retry).res = Except.error DepsError.selfDep ∧
      (process_deps o bd rd slug retry).installs = 0) ∧
    (o.available slug = true →
      (process_deps o bd rd slug retry).res ≠ Except.error DepsError.selfDep ∧
      1 ≤ (process_deps o bd rd slug retry).selfWarnings) := by
  constructor
  · intro hinst havail
    have hcol := collect_self_dep_error o slug hinst havail (bd ++ rd) hmem
    have hb := body_collect_error o bd rd slug retry (process_deps_fuel o bd rd slug 2)
      DepsError.selfDep hcol
    rw [process_deps_eq_body, hb]
    exact ⟨rfl, rfl⟩
  · intro havail
    obtain ⟨⟨sp, hsp⟩, hw⟩ := collect_avail_ok o slug havail (bd ++ rd)
    constructor
    · rw [process_deps_eq_body]
      exact body_res_no_selfDep o bd rd slug retry _ sp hsp
        (fun r' => fuel_no_selfDep o bd rd slug sp hsp 2 r')
    · have h1 := hw hmem
      have h2 := body_selfWarnings_ge o bd rd slug retry (process_deps_fuel o bd rd slug 2)
      rw [process_deps_eq_body]
      omega

/-- C4 witness: both branches at concrete oracles, package p depending on
itself. -/
theorem c4_witness :
    (process_deps nothing_available_oracle ["p"] [] "p" 0).res =
      Except.error DepsError.selfDep ∧
    1 ≤ (process_deps self_binary_oracle ["p"] [] "p" 0).selfWarnings := by
  constructor
  · exact ((c4_self_dependency nothing_available_oracle ["p"] [] "p" 0 (by decide)).1
      rfl rfl).1
  · exact ((c4_self_dependency self_binary_oracle ["p"] [] "p" 0 (by decide)).2 rfl).2

/-- C10 counterexample: an instance whose counter already exceeds one (retry
2), called for a package that depends on itself with no binary fallback,
raises the self-dependency error instead of returning through the
exhaust-mode branch, refuting the claim that every such call returns via
that branch. -/
theorem c10_counterexample :
    (process_deps nothing_available_oracle ["p"] [] "p" 2).res =
      Except.error DepsError.selfDep := rfl

/-- C10 amended: the retry counter starts at 0, never decreases, and grows
by at most one per install attempt (it is incremented only on the
install-failure path); once it exceeds one, a call performs no install
attempt and no recursion, and - unless it raises during the self-dependency
check or on the unresolved-set type error - returns the de-duplicated
installable union computed by the exhaust branch. -/
theorem c10_retry_counter (o : PMOracle) (bd rd : List String) (slug : String)
    (retry : Nat) (sp na : List String) :
    initial_retry = 0 ∧
    retry ≤ (process_deps o bd rd slug retry).retryAfter ∧
    (process_deps o bd rd slug retry).retryAfter ≤
      retry + (process_deps o bd rd slug retry).installs ∧
    (1 < retry →
      (process_deps o bd rd slug retry).installs = 0 ∧
      (process_deps o bd rd slug retry).calls = 1) ∧
    (1 < retry → (collect_search_pkgs o slug (bd ++ rd)).1 = Except.ok sp →
      (search_deps o sp).2 = none →
      (process_deps o bd rd slug retry).res =
        Except.ok (some (uniq ((search_deps o sp).1.getD [])))) ∧
    (1 < retry → (collect_search_pkgs o slug (bd ++ rd)).1 = Except.ok sp →
      (search_deps o sp).2 = some na →
      (process_deps o bd rd slug retry).res = Except.error DepsError.typeError) := by
  refine ⟨rfl, ?_, ?_, ?_, ?_, ?_⟩
  · exact fuel_retry_le o bd rd slug 3 retry
  · exact fuel_retry_installs o bd rd slug 3 retry
  · intro hlt
    rw [process_deps_eq_body]
    exact body_exhaust o bd rd slug retry _ hlt
  · intro hlt hcol hs2
    rw [process_deps_eq_body]
    exact body_exhaust_ok o bd rd slug retry _ sp hlt hcol hs2
  · intro hlt hcol hs2
    rw [process_deps_eq_body]
    exact body_exhaust_typeError o bd rd slug retry _ sp na hlt hcol hs2

/-- C10 witness: the amended statement evaluated on a concrete call with the
counter at 2. -/
theorem c10_witness :
    initial_retry = 0 ∧
    2 ≤ (process_deps failing_install_oracle ["a"] [] "p" 2).retryAfter ∧
    (process_deps failing_install_oracle ["a"] [] "p" 2).installs = 0 ∧
    (process_deps failing_install_oracle ["a"] [] "p" 2).calls = 1 ∧
    (process_deps failing_install_oracle ["a"] [] "p" 2).res =
      Except.ok (some (uniq ((search_deps failing_install_oracle ["a"]).1.getD []))) := by
  have h := c10_retry_counter failing_install_oracle ["a"] [] "p" 2 ["a"] []
  exact ⟨h.1, h.2.1, (h.2.2.2.1 (by omega)).1, (h.2.2.2.1 (by omega)).2,
    h.2.2.2.2.1 (by omega) rfl rfl⟩

/-- Running the build loop over a queue whose first failure is at position k
(every earlier build succeeds): the loop stops at k, the timing list extends
the accumulator with one entry per successfully built package, the early
report prints exactly that list when it is nonempty, and the build-failure
error names the failing package and its folder. -/
theorem build_loop_fail_spec (buildOk : String → Bool) (dur : String → Nat)
    (dirOf : String → String) :
    ∀ (tasks : List String) (k : Nat) (acc : List (String × Nat)) (hk : k < tasks.length),
      (∀ j (hj : j < tasks.length), j < k → buildOk (tasks.get ⟨j, hj⟩) = true) →
      buildOk (tasks.get ⟨k, hk⟩) = false →
      build_loop buildOk dur dirOf tasks acc =
        ⟨if (acc ++ (tasks.take k).map (fun t => (t, dur t))).isEmpty then none
          else some (acc ++ (tasks.take k).map (fun t => (t, dur t))),
         acc ++ (tasks.take k).map (fun t => (t, dur t)),
         tasks.take (k + 1),
         Except.error (BuildError.buildFailure (tasks.get ⟨k, hk⟩)
           (dirOf (tasks.get ⟨k, hk⟩)))⟩ := by
  intro tasks
  induction tasks with
  | nil => intro k acc hk; simp at hk
  | cons t rest ih =>
    intro k acc hk hsucc hfail
    cases k with
    | zero =>
      have ht : buildOk t = false := hfail
      simp [build_loop, ht]
    | succ k =>
      have ht : buildOk t = true := hsucc 0 (by simp) (by omega)
      have hk' : k < rest.length := by simpa using hk
      have hsucc' : ∀ j (hj : j < rest.length), j < k →
          buildOk (rest.get ⟨j, hj⟩) = true := by
        intro j hj hjk
        have := hsucc (j + 1) (by simpa using Nat.succ_lt_succ hj) (Nat.succ_lt_succ hjk)
        simpa using this
      have hfail' : buildOk (rest.get ⟨k, hk'⟩) = false := by
        simpa using hfail
      have hrec := ih k (acc ++ [(t, dur t)]) hk' hsucc' hfail'
      simp only [build_loop, ht, if_true]
      rw [hrec]
      simp [List.take_succ_cons, List.append_assoc]

/-- C7: if the external build tool fails on the package at position k of the
queue while every earlier build succeeded, the driver prints exactly one
timing entry per previously built package before raising (nothing is printed
when no entry was collected yet), the collected timings contain exactly
those entries - appended only after the corresponding successful build - and
the error names the failing package and its build folder. -/
theorem c7_timing_on_failure (buildOk : String → Bool) (dur : String → Nat)
    (dirOf : String → String) (tasks : List String) (k : Nat) (hk : k < tasks.length)
    (hsucc : ∀ j (hj : j < tasks.length), j < k → buildOk (tasks.get ⟨j, hj⟩) = true)
    (hfail : buildOk (tasks.get ⟨k, hk⟩) = false) :
    (build_loop buildOk dur dirOf tasks []).timings =
      (tasks.take k).map (fun t => (t, dur t)) ∧
    (build_loop buildOk dur dirOf tasks []).printed =
      (if k = 0 then none else some ((tasks.take k).map (fun t => (t, dur t)))) ∧
    (build_loop buildOk dur dirOf tasks []).built = tasks.take (k + 1) ∧
    (build_loop buildOk dur dirOf tasks []).result =
      Except.error (BuildError.buildFailure (tasks.get ⟨k, hk⟩)
        (dirOf (tasks.get ⟨k, hk⟩))) := by
  have h := build_loop_fail_spec buildOk dur dirOf tasks k [] hk hsucc hfail
  rw [h]
  refine ⟨by simp, ?_, rfl, rfl⟩
  simp only [List.nil_append]
  by_cases hk0 : k = 0
  · subst hk0; simp
  · have hne : tasks.take k ≠ [] := by
      intro hnil
      have hlen : (tasks.take k).length = 0 := by rw [hnil]; rfl
      rw [List.length_take] at hlen
      omega
    have hcond : ¬(((tasks.take k).map (fun t => (t, dur t))).isEmpty = true) := by
      cases htk : tasks.take k with
      | nil => exact absurd htk hne
      | cons a l => simp [htk]
    rw [if_neg hcond, if_neg hk0]

/-- C7 witness: the third of three queued packages fails; the printed report
contains exactly the first two entries. -/
theorem c7_witness :
    (build_loop fails_on_c unit_dur dir_oracle ["a", "b", "c"] []).printed =
      some [("a", 1), ("b", 1)] ∧
    (build_loop fails_on_c unit_dur dir_oracle ["a", "b", "c"] []).timings =
      [("a", 1), ("b", 1)] := by
  have h := c7_timing_on_failure fails_on_c unit_dur dir_oracle ["a", "b", "c"] 2
    (by simp) (by intro j hj hjk; interval_cases j <;> simp [fails_on_c])
    (by simp [fails_on_c])
  exact ⟨h.2.1.trans (by decide), h.1.trans (by decide)⟩

end Acbs
